import Mathlib

/-!
Shallow embedding of the Prescripto pharmacy-directory backend
(`src/models/pharmacy.js`, `src/routes/pharmacies.js`).

The mongoose schema becomes executable validation functions over payloads
whose fields are all optional (a JSON request body); the five express route
handlers become pure functions from a store state (an association list of
generated ids to records) and a request to a response and a new state.
JS numbers are modelled as `Rat`, strings as `String`; the store's id type
is `Nat`, and a route `:id` parameter is either a well-formed id or a
malformed one (mongoose `CastError`, `err.kind === 'ObjectId'`).
-/

namespace Prescripto

/-! ## String helpers (JS semantics used by the schema and the query filters) -/

/-- Lowercasing as used by the schema's `lowercase: true` setter and the
`'i'` regex flag: character-wise `Char.toLower`. -/
def lowerStr (s : String) : String :=
  ⟨s.data.map Char.toLower⟩

/-- JS `String.prototype.trim`, as applied by the schema's `trim: true`
setter: strip leading and trailing whitespace. -/
def trimStr (s : String) : String :=
  ⟨((s.data.dropWhile Char.isWhitespace).reverse.dropWhile Char.isWhitespace).reverse⟩

/-- Is `c` in the inclusive character range `lo`..`hi`? -/
def between (lo hi c : Char) : Bool :=
  lo.toNat ≤ c.toNat && c.toNat ≤ hi.toNat

/-- The anchored time pattern of the schema,
`/^([01]\d|2[0-3]):([0-5]\d)$/` applied by `RegExp.test` (full match,
since the pattern is anchored at both ends). -/
def timeOk (s : String) : Bool :=
  match s.data with
  | [h1, h2, c, m1, m2] =>
    c == ':' &&
    ((between '0' '1' h1 && between '0' '9' h2) ||
      (h1 == '2' && between '0' '3' h2)) &&
    between '0' '5' m1 && between '0' '9' m2
  | _ => false

/-- The unanchored email pattern of the schema, `/\S+@\S+\.\S+/` applied by
`RegExp.test` (search anywhere in the string): there are positions `p < q`
holding `'@'` and `'.'`, a non-whitespace character right before the `'@'`
and right after the `'.'`, and at least one character strictly between them,
all non-whitespace (`\S` = not whitespace). -/
def emailOk (s : String) : Bool :=
  let cs := s.data
  let n := cs.length
  (List.range n).any (fun p =>
    (List.range n).any (fun q =>
      decide (1 ≤ p) && decide (p + 2 ≤ q) && decide (q + 1 < n) &&
      (cs.getD p ' ' == '@') && (cs.getD q ' ' == '.') &&
      !(cs.getD (p - 1) ' ').isWhitespace &&
      !(cs.getD (q + 1) ' ').isWhitespace &&
      (List.range' (p + 1) (q - p - 1)).all
        (fun j => !(cs.getD j ' ').isWhitespace)))

/-! ## A fragment of JS regular expressions

The list endpoint builds `new RegExp(query, 'i')` from the raw query string
and lets the store search it anywhere in the field.  We embed the fragment
of JS regex syntax in which every character stands for itself except `.`,
which matches any character; theorems about arbitrary queries carry a
`supportedQuery` hypothesis restricting them to this fragment. -/

inductive RTok where
  | lit (c : Char)
  | dot
  deriving DecidableEq

/-- Does the token list match a prefix of the character list? -/
def rmatch : List RTok → List Char → Bool
  | [], _ => true
  | _ :: _, [] => false
  | RTok.lit c :: ps, x :: xs => (c == x) && rmatch ps xs
  | RTok.dot :: ps, _ :: xs => rmatch ps xs

/-- Unanchored regex search (`RegExp.test`): the pattern matches starting
at some position of the subject. -/
def rsearch (p : List RTok) (s : List Char) : Bool :=
  s.tails.any (rmatch p)

/-- JS regex metacharacters other than `.` (outside the embedded fragment). -/
def jsSpecials : List Char :=
  ['\\', '*', '+', '?', '(', ')', '[', ']', '\x7b', '\x7d', '|', '^', '$']

/-- The query string uses only the embedded regex fragment. -/
def supportedQuery (q : String) : Bool :=
  q.data.all (fun c => !jsSpecials.contains c)

/-- The query string is a literal: no metacharacter at all, not even `.`. -/
def literalQuery (q : String) : Bool :=
  supportedQuery q && !q.data.contains '.'

/-- The effect of `new RegExp(q, 'i')` on the fragment: `.` becomes the wildcard, every
other character a (case-folded) literal. -/
def parsePat (q : String) : List RTok :=
  q.data.map (fun c => if c == '.' then RTok.dot else RTok.lit c.toLower)

/-- Case-insensitive regex search of query `q` in subject `s`
(`new RegExp(q, 'i')` tested against `s`). -/
def regexFindI (q s : String) : Bool :=
  rsearch (parsePat q) (lowerStr s).data

/-- The `?city=` filter: `filter['address.city'] = new RegExp(q, 'i')`. -/
def cityMatches (q city : String) : Bool :=
  regexFindI q city

/-- The `?service=` filter:
`filter.servicesOffered = { $in: [new RegExp(q, 'i')] }` — the array field
matches when some element matches the regex. -/
def serviceMatches (q : String) (svcs : List String) : Bool :=
  svcs.any (fun s => regexFindI q s)

/-- Boolean prefix test on character lists. -/
def prefB : List Char → List Char → Bool
  | [], _ => true
  | _ :: _, [] => false
  | a :: l, b :: xs => (a == b) && prefB l xs

/-- Modelled from the spec's words (for comparison with `cityMatches`):
"the query value occurs as a case-insensitive substring of `address.city`". -/
def specCitySubstr (q city : String) : Bool :=
  (lowerStr city).data.tails.any (prefB (lowerStr q).data)

/-! ## Data model (`pharmacySchema` and its sub-schemas) -/

/-- Optional `address.coordinates` sub-object (`latitude`, `longitude` as
JS numbers, no constraints). -/
structure Coordinates where
  latitude : Option Rat := none
  longitude : Option Rat := none
  deriving DecidableEq

/-- A stored `Address` subdocument (all string fields already trimmed,
`country` defaulted). -/
structure Address where
  street : String
  city : String
  state : String
  zipCode : String
  country : String
  coordinates : Coordinates
  deriving DecidableEq

/-- A stored `OpeningHours` subdocument. -/
structure OpeningHours where
  dayOfWeek : Rat
  openTime : String
  closeTime : String
  deriving DecidableEq

/-- A stored `Pharmacy` document.  `createdAt`/`updatedAt` (store-maintained
timestamps) and the generated `_id` (kept as the store key) are metadata
outside the schema's payload fields and are not modelled on the record. -/
structure Pharmacy where
  name : String
  address : Address
  phoneNumber : String
  email : Option String
  website : Option String
  licenseNumber : String
  servicesOffered : List String
  openingHours : List OpeningHours
  isActive : Bool
  deriving DecidableEq

/-! ## Request payloads (JSON bodies: every field may be absent) -/

/-- The `address` object of a request body. -/
structure AddressP where
  street : Option String := none
  city : Option String := none
  state : Option String := none
  zipCode : Option String := none
  country : Option String := none
  coordinates : Coordinates := {}
  deriving DecidableEq

/-- An `openingHours` element of a request body. -/
structure OHP where
  dayOfWeek : Option Rat := none
  openTime : Option String := none
  closeTime : Option String := none
  deriving DecidableEq

/-- A request body for the create and update endpoints.  `isActive` can be
sent by a client; the create handler never reads it, the update handler
spreads the whole body (`{ ...req.body }`). -/
structure Payload where
  name : Option String := none
  address : Option AddressP := none
  phoneNumber : Option String := none
  email : Option String := none
  website : Option String := none
  licenseNumber : Option String := none
  servicesOffered : Option (List String) := none
  openingHours : Option (List OHP) := none
  isActive : Option Bool := none
  deriving DecidableEq

/-! ## Schema validation

Mongoose applies the string setters (`trim`, `lowercase`) when a value is
assigned, then the validators.  `required` on a string path fails when the
value is absent or the empty string; the `match` validator is skipped for
absent and empty values; `min`/`max` bound a number; a violated validator
contributes an entry to `err.errors` keyed by the field path.  We compute
the list of failing field paths, and separately the materialised values. -/

/-- Required trimmed string path: absent or trimmed-empty fails. -/
def reqErr (path : String) (v : Option String) : List String :=
  match v with
  | none => [path]
  | some s => if trimStr s = "" then [path] else []

/-- Normalisation of the `email` path: `trim` and `lowercase` setters. -/
def emailNorm (s : String) : String :=
  lowerStr (trimStr s)

/-- Errors of the `email` path: optional; `match` is skipped for empty values. -/
def emailErrs (v : Option String) : List String :=
  match v with
  | none => []
  | some s =>
    if emailNorm s = "" then []
    else if emailOk (emailNorm s) then [] else ["email"]

/-- Errors of the `address` subdocument (required sub-fields plus the defaulted,
still-required `country`). -/
def addrErrs (ap : AddressP) : List String :=
  reqErr "address.street" ap.street ++
  reqErr "address.city" ap.city ++
  reqErr "address.state" ap.state ++
  reqErr "address.zipCode" ap.zipCode ++
  (match ap.country with
   | none => []
   | some s => if trimStr s = "" then ["address.country"] else [])

/-- Errors of the root `address` path: required, else subdocument errors. -/
def addressErrs (v : Option AddressP) : List String :=
  match v with
  | none => ["address"]
  | some ap => addrErrs ap

/-- Errors of the `dayOfWeek` path: required number with `min: 0, max: 6`. -/
def ohDayErr (pre : String) (d : Option Rat) : List String :=
  match d with
  | none => [pre ++ ".dayOfWeek"]
  | some d => if d < 0 ∨ 6 < d then [pre ++ ".dayOfWeek"] else []

/-- Errors of the `openTime` and `closeTime` paths: required, anchored `HH:MM` match. -/
def ohTimeErr (path : String) (v : Option String) : List String :=
  match v with
  | none => [path]
  | some s => if timeOk s then [] else [path]

/-- Errors of one `openingHours` element. -/
def ohErrs (pre : String) (e : OHP) : List String :=
  ohDayErr pre e.dayOfWeek ++
  ohTimeErr (pre ++ ".openTime") e.openTime ++
  ohTimeErr (pre ++ ".closeTime") e.closeTime

/-- Errors of the `openingHours` array, paths indexed from `j`. -/
def ohListErrs (j : Nat) : List OHP → List String
  | [] => []
  | e :: rest => ohErrs ("openingHours." ++ Nat.repr j) e ++ ohListErrs (j + 1) rest

/-- All validation-error paths of a full document built from payload `p`
(document validation, as run by `save()` on create). -/
def errsCreate (p : Payload) : List String :=
  reqErr "name" p.name ++
  addressErrs p.address ++
  reqErr "phoneNumber" p.phoneNumber ++
  emailErrs p.email ++
  reqErr "licenseNumber" p.licenseNumber ++
  ohListErrs 0 (p.openingHours.getD [])

/-- All validation-error paths of an update operation
(`runValidators: true` validates exactly the paths present in `$set`). -/
def errsUpdate (p : Payload) : List String :=
  (match p.name with
   | none => []
   | some s => reqErr "name" (some s)) ++
  (match p.address with
   | none => []
   | some ap => addrErrs ap) ++
  (match p.phoneNumber with
   | none => []
   | some s => reqErr "phoneNumber" (some s)) ++
  emailErrs p.email ++
  (match p.licenseNumber with
   | none => []
   | some s => reqErr "licenseNumber" (some s)) ++
  (match p.openingHours with
   | none => []
   | some l => ohListErrs 0 l)

/-! ## Materialising documents from payloads -/

/-- Cast an address payload to a stored address: trim the strings, default
`country` to `"USA"`.  Only trusted when `addrErrs` is empty. -/
def buildAddress (ap : AddressP) : Address where
  street := (trimStr (ap.street.getD ""))
  city := (trimStr (ap.city.getD ""))
  state := (trimStr (ap.state.getD ""))
  zipCode := (trimStr (ap.zipCode.getD ""))
  country := (ap.country.map trimStr).getD "USA"
  coordinates := ap.coordinates

/-- Cast an `openingHours` element. -/
def buildOH (e : OHP) : OpeningHours where
  dayOfWeek := e.dayOfWeek.getD 0
  openTime := e.openTime.getD ""
  closeTime := e.closeTime.getD ""

/-- The document the create handler builds: it copies exactly the fields
`name`, `address`, `phoneNumber`, `licenseNumber`, `email`, `website`,
`servicesOffered`, `openingHours` out of the body; `isActive` takes the
schema default `true`; absent arrays default to `[]`. -/
def buildCreate (p : Payload) : Pharmacy where
  name := trimStr (p.name.getD "")
  address := buildAddress (p.address.getD {})
  phoneNumber := trimStr (p.phoneNumber.getD "")
  email := p.email.map emailNorm
  website := p.website.map trimStr
  licenseNumber := trimStr (p.licenseNumber.getD "")
  servicesOffered := (p.servicesOffered.getD []).map trimStr
  openingHours := (p.openingHours.getD []).map buildOH
  isActive := true

/-- The merge-update of `findByIdAndUpdate(id, { $set: {...req.body} })`:
every field present in the body is cast and replaces the stored one, every
absent field keeps its stored value. -/
def buildUpdate (old : Pharmacy) (p : Payload) : Pharmacy where
  name := (p.name.map trimStr).getD old.name
  address := (p.address.map buildAddress).getD old.address
  phoneNumber := (p.phoneNumber.map trimStr).getD old.phoneNumber
  email := match p.email with
    | none => old.email
    | some s => some (emailNorm s)
  website := match p.website with
    | none => old.website
    | some s => some (trimStr s)
  licenseNumber := (p.licenseNumber.map trimStr).getD old.licenseNumber
  servicesOffered := (p.servicesOffered.map (List.map trimStr)).getD old.servicesOffered
  openingHours := (p.openingHours.map (List.map buildOH)).getD old.openingHours
  isActive := p.isActive.getD old.isActive

/-- Document-level validity of a stored record (what `save()` re-checks on
an already-materialised document, e.g. during soft delete). -/
def recordValid (r : Pharmacy) : Bool :=
  (r.name != "") &&
  (r.address.street != "") && (r.address.city != "") &&
  (r.address.state != "") && (r.address.zipCode != "") &&
  (r.address.country != "") &&
  (r.phoneNumber != "") &&
  (match r.email with
   | none => true
   | some t => (t == "") || emailOk t) &&
  (r.licenseNumber != "") &&
  r.openingHours.all (fun e =>
    decide (0 ≤ e.dayOfWeek) && decide (e.dayOfWeek ≤ 6) &&
    timeOk e.openTime && timeOk e.closeTime)

/-! ## Store state and HTTP surface -/

/-- The `:id` route parameter: a well-formed store id, or a string the
store's id type cannot parse (mongoose raises a `CastError` with
`err.kind === 'ObjectId'`). -/
inductive RId where
  | bad
  | ok (i : Nat)
  deriving DecidableEq

/-- The document store: generated-id/record pairs plus the next fresh id. -/
structure DB where
  recs : List (Nat × Pharmacy)
  next : Nat
  deriving DecidableEq

def emptyDB : DB := ⟨[], 0⟩

/-- Lookup by id on the record list (`findById`). -/
def lookupRec : List (Nat × Pharmacy) → Nat → Option Pharmacy
  | [], _ => none
  | r :: rs, i => if r.1 == i then some r.2 else lookupRec rs i

def DB.find? (db : DB) (i : Nat) : Option Pharmacy :=
  lookupRec db.recs i

/-- Replace the record stored under an id. -/
def setRec : List (Nat × Pharmacy) → Nat → Pharmacy → List (Nat × Pharmacy)
  | [], _, _ => []
  | r :: rs, i, p => if r.1 == i then (i, p) :: setRec rs i p else r :: setRec rs i p

def DB.set (db : DB) (i : Nat) (p : Pharmacy) : DB :=
  ⟨setRec db.recs i p, db.next⟩

/-- Insert a new record under a fresh generated id. -/
def DB.insert (db : DB) (p : Pharmacy) : DB :=
  ⟨db.recs ++ [(db.next, p)], db.next + 1⟩

/-- Another stored record already carries this license number
(the unique index on `licenseNumber`, violated at insert). -/
def DB.hasLicense (db : DB) (lic : String) : Bool :=
  db.recs.any (fun r => r.2.licenseNumber == lic)

/-- Another stored record, with a different id, carries this license number
(the unique index, violated at update). -/
def DB.otherHasLicense (db : DB) (i : Nat) (lic : String) : Bool :=
  db.recs.any (fun r => (r.1 != i) && (r.2.licenseNumber == lic))

/-- The responses the five handlers can produce. -/
inductive Response where
  | created (p : Pharmacy)
  | okRecord (p : Pharmacy)
  | okList (ps : List Pharmacy)
  | okMsg (msg : String)
  | dupKey (msg : String)
  | validationErr (fields : List String)
  | notFound (msg : String)
  | serverErr
  deriving DecidableEq

def Response.statusCode : Response → Nat
  | created _ => 201
  | okRecord _ => 200
  | okList _ => 200
  | okMsg _ => 200
  | dupKey _ => 400
  | validationErr _ => 400
  | notFound _ => 404
  | serverErr => 500

/-! ## Route handlers -/

/-- Create endpoint (`POST /`): build the document from the whitelisted body fields, `save()`
(validation first, then the unique-index insert), map `ValidationError` and
duplicate-key (`err.code === 11000`) failures to 400. -/
def createHandler (db : DB) (p : Payload) : Response × DB :=
  let errs := errsCreate p
  if errs = [] then
    let doc := buildCreate p
    if db.hasLicense doc.licenseNumber then
      (Response.dupKey "Pharmacy with this license number already exists.", db)
    else
      (Response.created doc, db.insert doc)
  else
    (Response.validationErr errs, db)

/-- The filter the list handler builds: always `isActive: true`; a present,
non-empty (JS truthy) `city` or `service` query adds a case-insensitive
regex condition. -/
def listKeep (qcity qservice : Option String) (r : Nat × Pharmacy) : Bool :=
  r.2.isActive &&
  (match qcity with
   | none => true
   | some q => (q == "") || cityMatches q r.2.address.city) &&
  (match qservice with
   | none => true
   | some q => (q == "") || serviceMatches q r.2.servicesOffered)

/-- Sorting of `Pharmacy.find(filter).sort({ name: 1 })`: ascending by name. -/
def sortByName (l : List Pharmacy) : List Pharmacy :=
  List.insertionSort (fun a b => a.name ≤ b.name) l

/-- List endpoint (`GET /`): the filtered records sorted by name; no pagination. -/
def listHandler (db : DB) (qcity qservice : Option String) : Response :=
  Response.okList (sortByName ((db.recs.filter (listKeep qcity qservice)).map Prod.snd))

/-- Fetch endpoint (`GET /:id`): 404 on a malformed id (caught `CastError`), on a missing
record, and on an inactive record; otherwise the record. -/
def getByIdHandler (db : DB) (rid : RId) : Response :=
  match rid with
  | RId.bad => Response.notFound "Pharmacy not found (Invalid ID format)"
  | RId.ok i =>
    match db.find? i with
    | none => Response.notFound "Pharmacy not found"
    | some p =>
      if p.isActive then Response.okRecord p
      else Response.notFound "Pharmacy not found"

/-- Update endpoint (`PUT /:id`): `findById` first (404 if absent or malformed id), then
`findByIdAndUpdate` with `$set: {...req.body}`, `runValidators: true` and
`new: true`; update validators run before the unique-index write. -/
def updateHandler (db : DB) (rid : RId) (p : Payload) : Response × DB :=
  match rid with
  | RId.bad => (Response.notFound "Pharmacy not found (Invalid ID format)", db)
  | RId.ok i =>
    match db.find? i with
    | none => (Response.notFound "Pharmacy not found", db)
    | some old =>
      let errs := errsUpdate p
      if errs = [] then
        let upd := buildUpdate old p
        if db.otherHasLicense i upd.licenseNumber then
          (Response.dupKey "Update failed: Duplicate key violation (e.g., license number).", db)
        else
          (Response.okRecord upd, db.set i upd)
      else
        (Response.validationErr errs, db)

/-- Delete endpoint (`DELETE /:id`): `findById` (404 if absent or malformed id), set
`isActive = false` and `save()` — a soft delete, the record is kept.
`save()` re-validates the document; the handler's catch maps an
unanticipated failure to 500 (it never happens on store-validated data). -/
def deleteHandler (db : DB) (rid : RId) : Response × DB :=
  match rid with
  | RId.bad => (Response.notFound "Pharmacy not found (Invalid ID format)", db)
  | RId.ok i =>
    match db.find? i with
    | none => (Response.notFound "Pharmacy not found", db)
    | some old =>
      let upd := { old with isActive := false }
      if recordValid upd then
        (Response.okMsg "Pharmacy marked as inactive", db.set i upd)
      else
        (Response.serverErr, db)

/-! ## Concrete fixtures -/

/-- A fully valid request address. -/
def okAddrP : AddressP :=
  { street := some "1 Main St", city := some "Boston",
    state := some "MA", zipCode := some "02108" }

/-- A fully valid create body. -/
def okPayload : Payload :=
  { name := some "Acme Pharmacy", address := some okAddrP,
    phoneNumber := some "555-1234", licenseNumber := some "L1" }

/-- The record the valid body materialises to. -/
def rec1 : Pharmacy := buildCreate okPayload

/-- A store holding `rec1` under id 0. -/
def db1 : DB := ⟨[(0, rec1)], 1⟩

/-- The record `rec1` soft-deleted. -/
def rec1Off : Pharmacy := { rec1 with isActive := false }

/-- A store holding only the inactive `rec1Off` under id 0. -/
def dbOff : DB := ⟨[(0, rec1Off)], 1⟩

/-- A create body whose license number duplicates the stored one but whose
`name` is missing. -/
def pDupNoName : Payload := { okPayload with name := none }

/-- The body `{ isActive: true }` alone. -/
def activatePayload : Payload := { isActive := some true }

/-- A body updating only the phone number. -/
def pPhone : Payload := { phoneNumber := some "999-0000" }

/-- The rational number 7/2, written as an explicit numerator/denominator
pair so that it evaluates by kernel reduction. -/
def halfSeven : ℚ := ⟨7, 2, by norm_num, by norm_num⟩

/-- A valid body except that its opening-hours day is the non-integer
number 7/2. -/
def pHalfDay : Payload :=
  { okPayload with
    openingHours := some [{ dayOfWeek := some halfSeven,
                            openTime := some "09:00", closeTime := some "17:00" }] }

/-- A valid body whose email is the empty string. -/
def pEmptyEmail : Payload := { okPayload with email := some "" }

instance : IsTotal Pharmacy (fun a b => a.name ≤ b.name) :=
  ⟨fun a b => le_total a.name b.name⟩

instance : IsTrans Pharmacy (fun a b => a.name ≤ b.name) :=
  ⟨fun _ _ _ h1 h2 => le_trans h1 h2⟩

/-! ## Basic handler lemmas -/

theorem createHandler_of_errs (db : DB) (p : Payload) (h : errsCreate p ≠ []) :
    createHandler db p = (Response.validationErr (errsCreate p), db) := by
  simp [createHandler, h]

theorem createHandler_of_dup (db : DB) (p : Payload)
    (h1 : errsCreate p = []) (h2 : db.hasLicense (buildCreate p).licenseNumber = true) :
    createHandler db p =
      (Response.dupKey "Pharmacy with this license number already exists.", db) := by
  simp [createHandler, h1, h2]

theorem createHandler_of_ok (db : DB) (p : Payload)
    (h1 : errsCreate p = []) (h2 : db.hasLicense (buildCreate p).licenseNumber = false) :
    createHandler db p = (Response.created (buildCreate p), db.insert (buildCreate p)) := by
  simp [createHandler, h1, h2]

theorem hasLicense_of_mem (db : DB) (r : Nat × Pharmacy) (lic : String)
    (hr : r ∈ db.recs) (hl : r.2.licenseNumber = lic) : db.hasLicense lic = true := by
  simp only [DB.hasLicense, List.any_eq_true]
  exact ⟨r, hr, by simp [hl]⟩

theorem lookup_setRec (l : List (Nat × Pharmacy)) (i : Nat) (p q : Pharmacy)
    (h : lookupRec l i = some q) : lookupRec (setRec l i p) i = some p := by
  induction l with
  | nil => simp [lookupRec] at h
  | cons r rs ih =>
    cases hb : (r.1 == i) with
    | true => simp [setRec, lookupRec, hb]
    | false =>
      simp only [lookupRec, hb, Bool.false_eq_true, if_false] at h
      simp only [setRec, hb, Bool.false_eq_true, if_false, lookupRec]
      exact ih h

theorem find?_set_self (db : DB) (i : Nat) (p q : Pharmacy) (h : db.find? i = some q) :
    (db.set i p).find? i = some p :=
  lookup_setRec db.recs i p q h

theorem updateHandler_of_errs (db : DB) (i : Nat) (p : Payload) (old : Pharmacy)
    (hf : db.find? i = some old) (he : errsUpdate p ≠ []) :
    updateHandler db (RId.ok i) p = (Response.validationErr (errsUpdate p), db) := by
  simp [updateHandler, hf, he]

theorem updateHandler_of_dup (db : DB) (i : Nat) (p : Payload) (old : Pharmacy)
    (hf : db.find? i = some old) (he : errsUpdate p = [])
    (hd : db.otherHasLicense i (buildUpdate old p).licenseNumber = true) :
    updateHandler db (RId.ok i) p =
      (Response.dupKey "Update failed: Duplicate key violation (e.g., license number).", db) := by
  simp [updateHandler, hf, he, hd]

theorem updateHandler_of_ok (db : DB) (i : Nat) (p : Payload) (old : Pharmacy)
    (hf : db.find? i = some old) (he : errsUpdate p = [])
    (hd : db.otherHasLicense i (buildUpdate old p).licenseNumber = false) :
    updateHandler db (RId.ok i) p =
      (Response.okRecord (buildUpdate old p), db.set i (buildUpdate old p)) := by
  simp [updateHandler, hf, he, hd]

theorem deleteHandler_found (db : DB) (i : Nat) (old : Pharmacy)
    (hf : db.find? i = some old) (hv : recordValid old = true) :
    deleteHandler db (RId.ok i) =
      (Response.okMsg "Pharmacy marked as inactive",
        db.set i { old with isActive := false }) := by
  have hv' : recordValid { old with isActive := false } = true := hv
  simp [deleteHandler, hf, hv']

theorem otherHasLicense_eq_false (db : DB) (i : Nat) (lic : String)
    (h : ∀ r ∈ db.recs, r.1 ≠ i → r.2.licenseNumber ≠ lic) :
    db.otherHasLicense i lic = false := by
  simp only [DB.otherHasLicense, List.any_eq_false]
  intro r hr
  simp only [Bool.and_eq_true, bne_iff_ne, beq_iff_eq, not_and]
  exact h r hr

/-! ## Validation lemmas -/

theorem reqErr_nil (path : String) (v : Option String) (h : reqErr path v = []) :
    ∃ s, v = some s ∧ trimStr s ≠ "" := by
  cases v with
  | none => simp [reqErr] at h
  | some s =>
    refine ⟨s, rfl, fun hs => ?_⟩
    simp [reqErr, hs] at h

theorem reqErr_some_nil (path s : String) (h : reqErr path (some s) = []) :
    trimStr s ≠ "" := by
  intro hs
  simp [reqErr, hs] at h

theorem emailErrs_some_nil (s : String) (h : emailErrs (some s) = []) :
    emailNorm s = "" ∨ emailOk (emailNorm s) = true := by
  by_cases h1 : emailNorm s = ""
  · exact Or.inl h1
  · by_cases h2 : emailOk (emailNorm s) = true
    · exact Or.inr h2
    · simp [emailErrs, h1, h2] at h

theorem addrErrs_nil (ap : AddressP) (h : addrErrs ap = []) :
    (buildAddress ap).street ≠ "" ∧ (buildAddress ap).city ≠ "" ∧
    (buildAddress ap).state ≠ "" ∧ (buildAddress ap).zipCode ≠ "" ∧
    (buildAddress ap).country ≠ "" := by
  simp only [addrErrs, List.append_eq_nil] at h
  obtain ⟨⟨⟨⟨h1, h2⟩, h3⟩, h4⟩, h5⟩ := h
  obtain ⟨s1, hv1, hs1⟩ := reqErr_nil _ _ h1
  obtain ⟨s2, hv2, hs2⟩ := reqErr_nil _ _ h2
  obtain ⟨s3, hv3, hs3⟩ := reqErr_nil _ _ h3
  obtain ⟨s4, hv4, hs4⟩ := reqErr_nil _ _ h4
  refine ⟨by simp [buildAddress, hv1, hs1], by simp [buildAddress, hv2, hs2],
    by simp [buildAddress, hv3, hs3], by simp [buildAddress, hv4, hs4], ?_⟩
  cases hc : ap.country with
  | none => simp [buildAddress, hc]
  | some s =>
    rw [hc] at h5
    have hs : trimStr s ≠ "" := by
      intro hs; simp [hs] at h5
    simp [buildAddress, hc, hs]

theorem ohErrs_eq_nil_iff (pre : String) (e : OHP) :
    ohErrs pre e = [] ↔
      ((∃ d, e.dayOfWeek = some d ∧ 0 ≤ d ∧ d ≤ 6) ∧
       (∃ s, e.openTime = some s ∧ timeOk s = true) ∧
       (∃ s, e.closeTime = some s ∧ timeOk s = true)) := by
  constructor
  · intro h
    simp only [ohErrs, List.append_eq_nil] at h
    obtain ⟨⟨h1, h2⟩, h3⟩ := h
    refine ⟨?_, ?_, ?_⟩
    · cases hd : e.dayOfWeek with
      | none => rw [hd] at h1; simp [ohDayErr] at h1
      | some d =>
        rw [hd] at h1
        by_cases hc : d < 0 ∨ 6 < d
        · simp [ohDayErr, hc] at h1
        · push_neg at hc
          exact ⟨d, rfl, hc.1, hc.2⟩
    · cases ht : e.openTime with
      | none => rw [ht] at h2; simp [ohTimeErr] at h2
      | some s =>
        rw [ht] at h2
        by_cases hc : timeOk s = true
        · exact ⟨s, rfl, hc⟩
        · simp [ohTimeErr, hc] at h2
    · cases ht : e.closeTime with
      | none => rw [ht] at h3; simp [ohTimeErr] at h3
      | some s =>
        rw [ht] at h3
        by_cases hc : timeOk s = true
        · exact ⟨s, rfl, hc⟩
        · simp [ohTimeErr, hc] at h3
  · rintro ⟨⟨d, hd, hd0, hd6⟩, ⟨ot, hot, hto⟩, ⟨ct, hct, htc⟩⟩
    have hc : ¬(d < 0 ∨ 6 < d) := by
      push_neg
      exact ⟨hd0, hd6⟩
    simp [ohErrs, ohDayErr, ohTimeErr, hd, hot, hct, hto, htc, hc]

theorem ohListErrs_nil_all (l : List OHP) :
    ∀ j, ohListErrs j l = [] → ∀ e ∈ l,
      0 ≤ (buildOH e).dayOfWeek ∧ (buildOH e).dayOfWeek ≤ 6 ∧
      timeOk (buildOH e).openTime = true ∧ timeOk (buildOH e).closeTime = true := by
  induction l with
  | nil => intro j _ e he; simp at he
  | cons a rest ih =>
    intro j h e he
    simp only [ohListErrs, List.append_eq_nil] at h
    obtain ⟨ha, hrest⟩ := h
    rcases List.mem_cons.mp he with he | he
    · subst he
      obtain ⟨⟨d, hd, hd0, hd6⟩, ⟨ot, hot, hto⟩, ⟨ct, hct, htc⟩⟩ :=
        (ohErrs_eq_nil_iff _ e).mp ha
      refine ⟨?_, ?_, ?_, ?_⟩ <;> simp [buildOH, hd, hot, hct, hd0, hd6, hto, htc]
    · exact ih (j + 1) hrest e he

/-- Unpack `recordValid` into its per-field facts. -/
theorem recordValid_fields (r : Pharmacy) (h : recordValid r = true) :
    r.name ≠ "" ∧ r.address.street ≠ "" ∧ r.address.city ≠ "" ∧
    r.address.state ≠ "" ∧ r.address.zipCode ≠ "" ∧ r.address.country ≠ "" ∧
    r.phoneNumber ≠ "" ∧
    (∀ t, r.email = some t → t = "" ∨ emailOk t = true) ∧
    r.licenseNumber ≠ "" ∧
    (∀ e ∈ r.openingHours, 0 ≤ e.dayOfWeek ∧ e.dayOfWeek ≤ 6 ∧
      timeOk e.openTime = true ∧ timeOk e.closeTime = true) := by
  simp only [recordValid, Bool.and_eq_true, bne_iff_ne, ne_eq, List.all_eq_true,
    decide_eq_true_eq] at h
  obtain ⟨⟨⟨⟨⟨⟨⟨⟨⟨h1, h2⟩, h3⟩, h4⟩, h5⟩, h6⟩, h7⟩, h8⟩, h9⟩, h10⟩ := h
  refine ⟨h1, h2, h3, h4, h5, h6, h7, ?_, h9, ?_⟩
  · intro t ht
    rw [ht] at h8
    simpa using h8
  · intro e he
    obtain ⟨⟨⟨hA, hB⟩, hC⟩, hD⟩ := h10 e he
    exact ⟨hA, hB, hC, hD⟩

/-- Build `recordValid` from its per-field facts. -/
theorem recordValid_of_fields (r : Pharmacy)
    (h1 : r.name ≠ "") (h2 : r.address.street ≠ "") (h3 : r.address.city ≠ "")
    (h4 : r.address.state ≠ "") (h5 : r.address.zipCode ≠ "")
    (h6 : r.address.country ≠ "") (h7 : r.phoneNumber ≠ "")
    (h8 : ∀ t, r.email = some t → t = "" ∨ emailOk t = true)
    (h9 : r.licenseNumber ≠ "")
    (h10 : ∀ e ∈ r.openingHours, 0 ≤ e.dayOfWeek ∧ e.dayOfWeek ≤ 6 ∧
      timeOk e.openTime = true ∧ timeOk e.closeTime = true) :
    recordValid r = true := by
  simp only [recordValid, Bool.and_eq_true, bne_iff_ne, ne_eq, List.all_eq_true,
    decide_eq_true_eq]
  refine ⟨⟨⟨⟨⟨⟨⟨⟨⟨h1, h2⟩, h3⟩, h4⟩, h5⟩, h6⟩, h7⟩, ?_⟩, h9⟩, ?_⟩
  · cases hm : r.email with
    | none => simp
    | some t =>
      rcases h8 t hm with ht | ht <;> simp [ht]
  · intro e he
    obtain ⟨hA, hB, hC, hD⟩ := h10 e he
    exact ⟨⟨⟨hA, hB⟩, hC⟩, hD⟩

/-- A merge-update whose `$set` paths all validate preserves document
validity. -/
theorem recordValid_buildUpdate (old : Pharmacy) (p : Payload)
    (hv : recordValid old = true) (he : errsUpdate p = []) :
    recordValid (buildUpdate old p) = true := by
  simp only [errsUpdate, List.append_eq_nil] at he
  obtain ⟨⟨⟨⟨⟨hn, ha⟩, hp⟩, hm⟩, hl⟩, ho⟩ := he
  obtain ⟨o1, o2, o3, o4, o5, o6, o7, o8, o9, o10⟩ := recordValid_fields old hv
  apply recordValid_of_fields
  · cases hc : p.name with
    | none => simpa [buildUpdate, hc] using o1
    | some s =>
      rw [hc] at hn
      simpa [buildUpdate, hc] using reqErr_some_nil _ _ hn
  · cases hc : p.address with
    | none => simpa [buildUpdate, hc] using o2
    | some ap =>
      rw [hc] at ha
      simpa [buildUpdate, hc] using (addrErrs_nil ap ha).1
  · cases hc : p.address with
    | none => simpa [buildUpdate, hc] using o3
    | some ap =>
      rw [hc] at ha
      simpa [buildUpdate, hc] using (addrErrs_nil ap ha).2.1
  · cases hc : p.address with
    | none => simpa [buildUpdate, hc] using o4
    | some ap =>
      rw [hc] at ha
      simpa [buildUpdate, hc] using (addrErrs_nil ap ha).2.2.1
  · cases hc : p.address with
    | none => simpa [buildUpdate, hc] using o5
    | some ap =>
      rw [hc] at ha
      simpa [buildUpdate, hc] using (addrErrs_nil ap ha).2.2.2.1
  · cases hc : p.address with
    | none => simpa [buildUpdate, hc] using o6
    | some ap =>
      rw [hc] at ha
      simpa [buildUpdate, hc] using (addrErrs_nil ap ha).2.2.2.2
  · cases hc : p.phoneNumber with
    | none => simpa [buildUpdate, hc] using o7
    | some s =>
      rw [hc] at hp
      simpa [buildUpdate, hc] using reqErr_some_nil _ _ hp
  · intro t ht
    cases hc : p.email with
    | none =>
      simp only [buildUpdate, hc] at ht
      exact o8 t ht
    | some s =>
      rw [hc] at hm
      simp only [buildUpdate, hc] at ht
      have hts := Option.some.inj ht
      subst hts
      rcases emailErrs_some_nil s hm with h | h
      · exact Or.inl h
      · exact Or.inr h
  · cases hc : p.licenseNumber with
    | none => simpa [buildUpdate, hc] using o9
    | some s =>
      rw [hc] at hl
      simpa [buildUpdate, hc] using reqErr_some_nil _ _ hl
  · intro e he'
    cases hc : p.openingHours with
    | none =>
      simp [buildUpdate, hc] at he'
      exact o10 e he'
    | some l =>
      rw [hc] at ho
      simp [buildUpdate, hc, List.mem_map] at he'
      obtain ⟨e0, he0, rfl⟩ := he'
      exact ohListErrs_nil_all l 0 ho e0 he0


/-- Inverting a successful create. -/
theorem createHandler_created_inv (db db2 : DB) (p : Payload) (rec : Pharmacy)
    (h : createHandler db p = (Response.created rec, db2)) :
    rec = buildCreate p ∧ errsCreate p = [] ∧ db2 = db.insert (buildCreate p) := by
  by_cases he : errsCreate p = []
  · cases hd : db.hasLicense (buildCreate p).licenseNumber with
    | true =>
      rw [createHandler_of_dup db p he hd] at h
      simp at h
    | false =>
      rw [createHandler_of_ok db p he hd] at h
      rw [Prod.mk.injEq] at h
      obtain ⟨h1, h2⟩ := h
      rw [Response.created.injEq] at h1
      exact ⟨h1.symm, he, h2.symm⟩
  · rw [createHandler_of_errs db p he] at h
    simp at h

/-- Inverting a successful update on a found record. -/
theorem updateHandler_ok_inv (db db2 : DB) (i : Nat) (old : Pharmacy) (p : Payload)
    (rec : Pharmacy) (hf : db.find? i = some old)
    (h : updateHandler db (RId.ok i) p = (Response.okRecord rec, db2)) :
    rec = buildUpdate old p ∧ errsUpdate p = [] := by
  by_cases he : errsUpdate p = []
  · cases hd : db.otherHasLicense i (buildUpdate old p).licenseNumber with
    | true =>
      rw [updateHandler_of_dup db i p old hf he hd] at h
      simp at h
    | false =>
      rw [updateHandler_of_ok db i p old hf he hd] at h
      rw [Prod.mk.injEq] at h
      obtain ⟨h1, _⟩ := h
      rw [Response.okRecord.injEq] at h1
      exact ⟨h1.symm, he⟩
  · rw [updateHandler_of_errs db i p old hf he] at h
    simp at h

/-! ## Claim C1 -/

/-- Claim C1, counterexample: `db1` already stores a record with license
number `"L1"`; the create request `pDupNoName` carries that same license
number, yet the endpoint answers with the validation-error response (its
`name` is missing), not with the fixed duplicate-license message — `save()`
runs schema validation before the unique-index insert is attempted. -/
theorem create_dup_license_cex :
    db1.hasLicense "L1" = true ∧
    pDupNoName.licenseNumber = some "L1" ∧
    createHandler db1 pDupNoName = (Response.validationErr ["name"], db1) ∧
    (createHandler db1 pDupNoName).1 ≠
      Response.dupKey "Pharmacy with this license number already exists." := by
  refine ⟨by decide, by decide, by decide, by decide⟩

/-- Claim C1 (amended): for every create request whose (trimmed)
`licenseNumber` equals the license number of a stored record, the endpoint
never answers 201 and leaves the store unchanged; when the request also
passes schema validation, the response is the 400 duplicate-key response
with the fixed duplicate-license message. -/
theorem create_dup_license (db : DB) (p : Payload) (s : String)
    (hlic : p.licenseNumber = some s)
    (hdup : ∃ r ∈ db.recs, r.2.licenseNumber = trimStr s) :
    (createHandler db p).2 = db ∧
    ((createHandler db p).1).statusCode ≠ 201 ∧
    (errsCreate p = [] →
      (createHandler db p).1 =
        Response.dupKey "Pharmacy with this license number already exists.") := by
  obtain ⟨r, hr, hl⟩ := hdup
  have hb : (buildCreate p).licenseNumber = trimStr s := by
    simp [buildCreate, hlic]
  have hdupB : db.hasLicense (buildCreate p).licenseNumber = true := by
    rw [hb]; exact hasLicense_of_mem db r (trimStr s) hr hl
  by_cases he : errsCreate p = []
  · rw [createHandler_of_dup db p he hdupB]
    exact ⟨rfl, by simp [Response.statusCode], fun _ => rfl⟩
  · rw [createHandler_of_errs db p he]
    exact ⟨rfl, by simp [Response.statusCode], fun h => absurd h he⟩

/-- Claim C1, witness. -/
theorem create_dup_license_w :
    (createHandler db1 okPayload).1 =
      Response.dupKey "Pharmacy with this license number already exists." :=
  (create_dup_license db1 okPayload "L1" rfl ⟨(0, rec1), by decide, by decide⟩).2.2
    (by decide)

/-! ## Claim C2 -/

/-- Claim C2: a create body missing `name`, `address` (or a required
address sub-field), `phoneNumber` or `licenseNumber` puts the missing
field's path among the validation errors, and whenever validation fails
the endpoint answers 400 with the per-field error list and inserts
nothing (the store is unchanged). -/
theorem create_missing_required (db : DB) (p : Payload) :
    (p.name = none → "name" ∈ errsCreate p) ∧
    (p.phoneNumber = none → "phoneNumber" ∈ errsCreate p) ∧
    (p.licenseNumber = none → "licenseNumber" ∈ errsCreate p) ∧
    (p.address = none → "address" ∈ errsCreate p) ∧
    (∀ ap, p.address = some ap → ap.street = none → "address.street" ∈ errsCreate p) ∧
    (∀ ap, p.address = some ap → ap.city = none → "address.city" ∈ errsCreate p) ∧
    (∀ ap, p.address = some ap → ap.state = none → "address.state" ∈ errsCreate p) ∧
    (∀ ap, p.address = some ap → ap.zipCode = none → "address.zipCode" ∈ errsCreate p) ∧
    (errsCreate p ≠ [] →
      (createHandler db p).1 = Response.validationErr (errsCreate p) ∧
      ((createHandler db p).1).statusCode = 400 ∧
      (createHandler db p).2 = db) := by
  refine ⟨?_, ?_, ?_, ?_, ?_, ?_, ?_, ?_, ?_⟩
  · intro h; simp [errsCreate, reqErr, h]
  · intro h; simp [errsCreate, reqErr, h]
  · intro h; simp [errsCreate, reqErr, h]
  · intro h; simp [errsCreate, addressErrs, h]
  · intro ap h1 h2; simp [errsCreate, addressErrs, addrErrs, reqErr, h1, h2]
  · intro ap h1 h2; simp [errsCreate, addressErrs, addrErrs, reqErr, h1, h2]
  · intro ap h1 h2; simp [errsCreate, addressErrs, addrErrs, reqErr, h1, h2]
  · intro ap h1 h2; simp [errsCreate, addressErrs, addrErrs, reqErr, h1, h2]
  · intro h
    rw [createHandler_of_errs db p h]
    exact ⟨rfl, rfl, rfl⟩

/-- Claim C2, witness. -/
theorem create_missing_required_w :
    "name" ∈ errsCreate pDupNoName ∧
    (createHandler emptyDB pDupNoName).1.statusCode = 400 := by
  refine ⟨(create_missing_required emptyDB pDupNoName).1 rfl, ?_⟩
  exact ((create_missing_required emptyDB pDupNoName).2.2.2.2.2.2.2.2 (by decide)).2.1

/-! ## Claim C3 -/

/-- Claim C3: `GET /:id` answers 200 with the record exactly when the id is
well formed, a record is stored under it, and that record is active; a
malformed id, a missing record and an inactive record all answer the same
404 not-found response (in particular the malformed-id case is 404, never
500). -/
theorem get_by_id_spec (db : DB) (rid : RId) :
    ((getByIdHandler db rid).statusCode = 200 ↔
      ∃ i p, rid = RId.ok i ∧ db.find? i = some p ∧ p.isActive = true ∧
        getByIdHandler db rid = Response.okRecord p) ∧
    ((getByIdHandler db rid).statusCode = 200 ∨
      (getByIdHandler db rid).statusCode = 404) ∧
    (rid = RId.bad →
      getByIdHandler db rid = Response.notFound "Pharmacy not found (Invalid ID format)") ∧
    (∀ i, rid = RId.ok i → db.find? i = none →
      getByIdHandler db rid = Response.notFound "Pharmacy not found") ∧
    (∀ i p, rid = RId.ok i → db.find? i = some p → p.isActive = false →
      getByIdHandler db rid = Response.notFound "Pharmacy not found") := by
  rcases rid with _ | i
  · simp [getByIdHandler, Response.statusCode]
  · cases hf : db.find? i with
    | none => simp [getByIdHandler, hf, Response.statusCode]
    | some p =>
      cases hact : p.isActive with
      | false => simp [getByIdHandler, hf, hact, Response.statusCode]
      | true =>
        refine ⟨?_, ?_, ?_, ?_, ?_⟩
        · constructor
          · intro _
            exact ⟨i, p, rfl, hf, hact, by simp [getByIdHandler, hf, hact]⟩
          · intro _
            simp [getByIdHandler, hf, hact, Response.statusCode]
        · left; simp [getByIdHandler, hf, hact, Response.statusCode]
        · intro h; cases h
        · intro i' h hf'
          cases h
          rw [hf] at hf'; cases hf'
        · intro i' p' h hf' hact'
          cases h
          rw [hf] at hf'; cases hf'
          rw [hact] at hact'; cases hact'

/-- Claim C3, witness. -/
theorem get_by_id_spec_w :
    getByIdHandler dbOff (RId.ok 0) = Response.notFound "Pharmacy not found" :=
  (get_by_id_spec dbOff (RId.ok 0)).2.2.2.2 0 rec1Off rfl (by decide) (by decide)

/-! ## Claim C6 -/

/-- Claim C6: deleting an existing (store-validated) record answers 200
with the confirmation message, keeps the record in storage under its id
with every field but `isActive` unchanged and `isActive = false`, and a
subsequent `GET /:id` on that id answers 404. -/
theorem delete_soft (db : DB) (i : Nat) (old : Pharmacy)
    (hf : db.find? i = some old) (hv : recordValid old = true) :
    deleteHandler db (RId.ok i) =
      (Response.okMsg "Pharmacy marked as inactive",
        db.set i { old with isActive := false }) ∧
    (Response.okMsg "Pharmacy marked as inactive").statusCode = 200 ∧
    (db.set i { old with isActive := false }).find? i =
      some { old with isActive := false } ∧
    ({ old with isActive := false } : Pharmacy).name = old.name ∧
    ({ old with isActive := false } : Pharmacy).address = old.address ∧
    ({ old with isActive := false } : Pharmacy).phoneNumber = old.phoneNumber ∧
    ({ old with isActive := false } : Pharmacy).email = old.email ∧
    ({ old with isActive := false } : Pharmacy).website = old.website ∧
    ({ old with isActive := false } : Pharmacy).licenseNumber = old.licenseNumber ∧
    ({ old with isActive := false } : Pharmacy).servicesOffered = old.servicesOffered ∧
    ({ old with isActive := false } : Pharmacy).openingHours = old.openingHours ∧
    ({ old with isActive := false } : Pharmacy).isActive = false ∧
    getByIdHandler (db.set i { old with isActive := false }) (RId.ok i) =
      Response.notFound "Pharmacy not found" := by
  have hset : (db.set i { old with isActive := false }).find? i =
      some { old with isActive := false } :=
    find?_set_self db i { old with isActive := false } old hf
  refine ⟨deleteHandler_found db i old hf hv, rfl, hset,
    rfl, rfl, rfl, rfl, rfl, rfl, rfl, rfl, rfl, ?_⟩
  simp [getByIdHandler, hset]

/-- Claim C6, witness. -/
theorem delete_soft_w :
    deleteHandler db1 (RId.ok 0) =
      (Response.okMsg "Pharmacy marked as inactive",
        db1.set 0 { rec1 with isActive := false }) ∧
    getByIdHandler (db1.set 0 { rec1 with isActive := false }) (RId.ok 0) =
      Response.notFound "Pharmacy not found" := by
  have h := delete_soft db1 0 rec1 (by decide) (by decide)
  exact ⟨h.1, h.2.2.2.2.2.2.2.2.2.2.2.2⟩

/-! ## Claim C10 -/

/-- Claim C10: update and delete only check that a record exists under the
id, not that it is active: on an inactive stored record, `GET /:id` answers
404 while `PUT /:id` with `{ isActive: true }` succeeds with 200 (turning
the record active again) and `DELETE /:id` succeeds with 200. -/
theorem inactive_update_delete (db : DB) (i : Nat) (old : Pharmacy)
    (hf : db.find? i = some old) (hin : old.isActive = false)
    (hv : recordValid old = true)
    (huniq : ∀ r ∈ db.recs, r.1 ≠ i → r.2.licenseNumber ≠ old.licenseNumber) :
    getByIdHandler db (RId.ok i) = Response.notFound "Pharmacy not found" ∧
    updateHandler db (RId.ok i) activatePayload =
      (Response.okRecord { old with isActive := true },
        db.set i { old with isActive := true }) ∧
    (Response.okRecord { old with isActive := true }).statusCode = 200 ∧
    deleteHandler db (RId.ok i) =
      (Response.okMsg "Pharmacy marked as inactive",
        db.set i { old with isActive := false }) ∧
    (Response.okMsg "Pharmacy marked as inactive").statusCode = 200 := by
  have hb : buildUpdate old activatePayload = { old with isActive := true } := rfl
  have he : errsUpdate activatePayload = [] := by decide
  have hd : db.otherHasLicense i (buildUpdate old activatePayload).licenseNumber = false := by
    rw [hb]
    exact otherHasLicense_eq_false db i old.licenseNumber huniq
  refine ⟨?_, ?_, rfl, deleteHandler_found db i old hf hv, rfl⟩
  · simp [getByIdHandler, hf, hin]
  · rw [updateHandler_of_ok db i activatePayload old hf he hd, hb]

/-- Claim C10, witness. -/
theorem inactive_update_delete_w :
    getByIdHandler dbOff (RId.ok 0) = Response.notFound "Pharmacy not found" ∧
    updateHandler dbOff (RId.ok 0) activatePayload =
      (Response.okRecord { rec1Off with isActive := true },
        dbOff.set 0 { rec1Off with isActive := true }) ∧
    deleteHandler dbOff (RId.ok 0) =
      (Response.okMsg "Pharmacy marked as inactive",
        dbOff.set 0 { rec1Off with isActive := false }) := by
  have h := inactive_update_delete dbOff 0 rec1Off (by decide) (by decide) (by decide)
    (by decide)
  exact ⟨h.1, h.2.1, h.2.2.2.1⟩

/-! ## Regex-fragment lemmas and sorting instances (for the list endpoint) -/

theorem rmatch_lits (ws : List Char) : ∀ xs : List Char,
    rmatch (ws.map RTok.lit) xs = prefB ws xs := by
  induction ws with
  | nil => intro xs; rfl
  | cons a l ih =>
    intro xs
    cases xs with
    | nil => rfl
    | cons b bs => simp [rmatch, prefB, ih]

theorem parsePat_literal (q : String) (h : literalQuery q = true) :
    parsePat q = (q.data.map Char.toLower).map RTok.lit := by
  simp only [literalQuery, Bool.and_eq_true, Bool.not_eq_eq_eq_not, Bool.not_true] at h
  have hdot : '.' ∉ q.data := by simpa using h.2
  simp only [parsePat, List.map_map]
  apply List.map_congr_left
  intro c hc
  have hne : ¬(c == '.') = true := by
    simp only [beq_iff_eq]
    intro hceq
    exact hdot (hceq ▸ hc)
  simp [Function.comp, hne]

theorem cityMatches_literal (q city : String) (h : literalQuery q = true) :
    cityMatches q city = specCitySubstr q city := by
  have hfun : rmatch ((q.data.map Char.toLower).map RTok.lit) =
      prefB (q.data.map Char.toLower) :=
    funext (fun xs => rmatch_lits (q.data.map Char.toLower) xs)
  show rsearch (parsePat q) (lowerStr city).data = _
  rw [parsePat_literal q h]
  unfold rsearch specCitySubstr
  rw [hfun]
  rfl

theorem listKeep_isActive (qc qs : Option String) (r : Nat × Pharmacy)
    (h : listKeep qc qs r = true) : r.2.isActive = true := by
  simp only [listKeep, Bool.and_eq_true] at h
  exact h.1.1

/-! ## Claim C5 -/

/-- Claim C5: on an existing id, update is a merge — every top-level field
absent from the body keeps its stored value — the update operation is
re-validated (and, when the stored record was valid, the merged result is
again a valid document), success answers 200 with the post-update record,
a missing or malformed id answers 404, and duplicate-key and validation
failures answer 400 as in create. -/
theorem update_merge :
    (∀ (db : DB) (i : Nat) (p : Payload) (old : Pharmacy),
      db.find? i = some old →
      (errsUpdate p = [] →
        (∀ r ∈ db.recs, r.1 ≠ i → r.2.licenseNumber ≠ (buildUpdate old p).licenseNumber) →
        updateHandler db (RId.ok i) p =
          (Response.okRecord (buildUpdate old p), db.set i (buildUpdate old p)) ∧
        (Response.okRecord (buildUpdate old p)).statusCode = 200) ∧
      (p.name = none → (buildUpdate old p).name = old.name) ∧
      (p.address = none → (buildUpdate old p).address = old.address) ∧
      (p.phoneNumber = none → (buildUpdate old p).phoneNumber = old.phoneNumber) ∧
      (p.email = none → (buildUpdate old p).email = old.email) ∧
      (p.website = none → (buildUpdate old p).website = old.website) ∧
      (p.licenseNumber = none → (buildUpdate old p).licenseNumber = old.licenseNumber) ∧
      (p.servicesOffered = none →
        (buildUpdate old p).servicesOffered = old.servicesOffered) ∧
      (p.openingHours = none → (buildUpdate old p).openingHours = old.openingHours) ∧
      (p.isActive = none → (buildUpdate old p).isActive = old.isActive) ∧
      (errsUpdate p ≠ [] →
        updateHandler db (RId.ok i) p = (Response.validationErr (errsUpdate p), db) ∧
        (Response.validationErr (errsUpdate p)).statusCode = 400) ∧
      (errsUpdate p = [] →
        db.otherHasLicense i (buildUpdate old p).licenseNumber = true →
        updateHandler db (RId.ok i) p =
          (Response.dupKey "Update failed: Duplicate key violation (e.g., license number).",
            db)) ∧
      (recordValid old = true → errsUpdate p = [] →
        recordValid (buildUpdate old p) = true)) ∧
    (∀ (db : DB) (p : Payload),
      updateHandler db RId.bad p =
        (Response.notFound "Pharmacy not found (Invalid ID format)", db)) ∧
    (∀ (db : DB) (i : Nat) (p : Payload), db.find? i = none →
      updateHandler db (RId.ok i) p = (Response.notFound "Pharmacy not found", db)) := by
  refine ⟨?_, ?_, ?_⟩
  · intro db i p old hf
    refine ⟨?_, ?_, ?_, ?_, ?_, ?_, ?_, ?_, ?_, ?_, ?_, ?_, ?_⟩
    · intro he huniq
      have hd := otherHasLicense_eq_false db i (buildUpdate old p).licenseNumber huniq
      exact ⟨updateHandler_of_ok db i p old hf he hd, rfl⟩
    · intro h; simp [buildUpdate, h]
    · intro h; simp [buildUpdate, h]
    · intro h; simp [buildUpdate, h]
    · intro h; simp [buildUpdate, h]
    · intro h; simp [buildUpdate, h]
    · intro h; simp [buildUpdate, h]
    · intro h; simp [buildUpdate, h]
    · intro h; simp [buildUpdate, h]
    · intro h; simp [buildUpdate, h]
    · intro he
      exact ⟨updateHandler_of_errs db i p old hf he, rfl⟩
    · intro he hd
      exact updateHandler_of_dup db i p old hf he hd
    · intro hv he
      exact recordValid_buildUpdate old p hv he
  · intro db p
    rfl
  · intro db i p hf
    simp [updateHandler, hf]

/-- Claim C5, witness. -/
theorem update_merge_w :
    updateHandler db1 (RId.ok 0) pPhone =
      (Response.okRecord (buildUpdate rec1 pPhone), db1.set 0 (buildUpdate rec1 pPhone)) ∧
    (buildUpdate rec1 pPhone).name = rec1.name ∧
    updateHandler emptyDB (RId.ok 5) pPhone =
      (Response.notFound "Pharmacy not found", emptyDB) := by
  have h := (update_merge.1 db1 0 pPhone rec1 (by decide))
  exact ⟨(h.1 (by decide) (by decide)).1, h.2.1 rfl,
    update_merge.2.2 emptyDB 5 pPhone (by decide)⟩

/-! ## Claim C9 -/

/-- Claim C9: the create handler copies only `name`, `address`,
`phoneNumber`, `licenseNumber`, `email`, `website`, `servicesOffered` and
`openingHours` out of the body — two bodies agreeing on those eight fields
produce identical outcomes, whatever their `isActive` — and every record a
successful create returns has `isActive = true` (the schema default). -/
theorem create_copies_only_whitelist :
    (∀ (db : DB) (p q : Payload),
      p.name = q.name → p.address = q.address → p.phoneNumber = q.phoneNumber →
      p.email = q.email → p.website = q.website → p.licenseNumber = q.licenseNumber →
      p.servicesOffered = q.servicesOffered → p.openingHours = q.openingHours →
      createHandler db p = createHandler db q) ∧
    (∀ (db db2 : DB) (p : Payload) (rec : Pharmacy),
      createHandler db p = (Response.created rec, db2) → rec.isActive = true) := by
  constructor
  · intro db p q h1 h2 h3 h4 h5 h6 h7 h8
    obtain ⟨n, a, ph, e, w, l, sv, oh, ia⟩ := p
    obtain ⟨n', a', ph', e', w', l', sv', oh', ia'⟩ := q
    simp only at h1 h2 h3 h4 h5 h6 h7 h8
    subst h1; subst h2; subst h3; subst h4
    subst h5; subst h6; subst h7; subst h8
    rfl
  · intro db db2 p rec h
    by_cases he : errsCreate p = []
    · cases hd : db.hasLicense (buildCreate p).licenseNumber with
      | true =>
        rw [createHandler_of_dup db p he hd] at h
        simp at h
      | false =>
        rw [createHandler_of_ok db p he hd] at h
        have hfst := congrArg Prod.fst h
        simp only at hfst
        cases hfst
        rfl
    · rw [createHandler_of_errs db p he] at h
      simp at h

/-- Claim C9, witness. -/
theorem create_copies_only_whitelist_w :
    createHandler emptyDB okPayload =
      createHandler emptyDB { okPayload with isActive := some false } ∧
    rec1.isActive = true := by
  constructor
  · exact create_copies_only_whitelist.1 emptyDB okPayload
      { okPayload with isActive := some false } rfl rfl rfl rfl rfl rfl rfl rfl
  · exact create_copies_only_whitelist.2 emptyDB db1 okPayload rec1 (by decide)

/-! ## Claim C4 -/

/-- Claim C4, counterexample: the list endpoint builds a regular expression
from the raw query string, so the query `"B.ston"` (with the regex wildcard
`.`) matches the stored city `"Boston"` and the record is returned, even
though `"B.ston"` is not a case-insensitive substring of `"Boston"` —
refuting "matches exactly when the query value occurs as a substring". -/
theorem list_endpoint_cex :
    listHandler db1 (some "B.ston") none = Response.okList [rec1] ∧
    rec1.address.city = "Boston" ∧
    rec1.isActive = true ∧
    specCitySubstr "B.ston" "Boston" = false := by
  exact ⟨by decide, by decide, by decide, by decide⟩

/-- Claim C4 (amended): the list endpoint returns exactly the active
records satisfying the filters, sorted by name ascending with no
pagination, and no inactive record ever appears; the city filter treats
the query as a case-insensitive regular expression searched anywhere in
`address.city` (so a query metacharacter such as `.` can match beyond
plain substrings), which for metacharacter-free queries coincides with
case-insensitive substring match — `?city=Boston` matches `"boston"` and
excludes `"Chicago"`. -/
theorem list_endpoint :
    (∀ (db : DB) (qc qs : Option String),
      ∃ l, listHandler db qc qs = Response.okList l ∧
        l.Perm ((db.recs.filter (listKeep qc qs)).map Prod.snd) ∧
        List.Sorted (fun a b : Pharmacy => a.name ≤ b.name) l ∧
        (∀ p, p ∈ l ↔ ∃ r, r ∈ db.recs ∧ r.2 = p ∧ listKeep qc qs r = true) ∧
        (∀ p, p ∈ l → p.isActive = true)) ∧
    (∀ q city, literalQuery q = true → cityMatches q city = specCitySubstr q city) ∧
    cityMatches "Boston" "boston" = true ∧
    cityMatches "Boston" "Chicago" = false := by
  refine ⟨?_, cityMatches_literal, by decide, by decide⟩
  intro db qc qs
  have hperm := List.perm_insertionSort (fun a b : Pharmacy => a.name ≤ b.name)
    ((db.recs.filter (listKeep qc qs)).map Prod.snd)
  have hmem : ∀ p, p ∈ sortByName ((db.recs.filter (listKeep qc qs)).map Prod.snd) ↔
      ∃ r, r ∈ db.recs ∧ r.2 = p ∧ listKeep qc qs r = true := by
    intro p
    rw [sortByName, hperm.mem_iff]
    simp only [List.mem_map, List.mem_filter]
    constructor
    · rintro ⟨r, ⟨hr, hk⟩, hp⟩
      exact ⟨r, hr, hp, hk⟩
    · rintro ⟨r, hr, hp, hk⟩
      exact ⟨r, ⟨hr, hk⟩, hp⟩
  refine ⟨sortByName ((db.recs.filter (listKeep qc qs)).map Prod.snd), rfl, hperm,
    List.sorted_insertionSort (fun a b : Pharmacy => a.name ≤ b.name) _, hmem, ?_⟩
  intro p hp
  obtain ⟨r, _, hp2, hk⟩ := (hmem p).mp hp
  rw [← hp2]
  exact listKeep_isActive qc qs r hk

/-- Claim C4, witness. -/
theorem list_endpoint_w :
    cityMatches "Bost" "Boston" = specCitySubstr "Bost" "Boston" :=
  list_endpoint.2.1 "Bost" "Boston" (by decide)

/-! ## Claim C7 -/

/-- Claim C7, counterexample: `dayOfWeek` is a JS number checked only
against `min: 0` and `max: 6`; the non-integer value 7/2 is accepted (the
create succeeds with 201), refuting "accepted exactly when it is an
integer in [0,6]". -/
theorem opening_hours_cex :
    halfSeven = (7 : ℚ)/2 ∧
    (createHandler emptyDB pHalfDay).1 = Response.created (buildCreate pHalfDay) ∧
    ((createHandler emptyDB pHalfDay).1).statusCode = 201 ∧
    (buildCreate pHalfDay).openingHours =
      [{ dayOfWeek := halfSeven, openTime := "09:00", closeTime := "17:00" }] ∧
    ¬ ∃ n : ℤ, halfSeven = (n : ℚ) := by
  have h72 : halfSeven = (7 : ℚ)/2 := by
    rw [halfSeven, Rat.mk'_eq_divInt, Rat.divInt_eq_div]
    norm_num
  refine ⟨h72, by decide, by decide, by decide, ?_⟩
  rintro ⟨n, hn⟩
  have hden : halfSeven.den = 2 := rfl
  rw [hn, Rat.den_intCast] at hden
  cases hden

/-- Claim C7 (amended): an `openingHours` entry passes validation exactly
when its `dayOfWeek` is a number in [0, 6] (integrality is not checked),
and its `openTime` and `closeTime` match the anchored 24-hour `HH:MM`
pattern — `"09:00"` accepted, `"25:00"` rejected; no cross-field check
compares `closeTime` with `openTime`; an invalid entry makes create and
update answer the validation 400. -/
theorem opening_hours_validation :
    (∀ (pre : String) (e : OHP),
      ohErrs pre e = [] ↔
        ((∃ d, e.dayOfWeek = some d ∧ 0 ≤ d ∧ d ≤ 6) ∧
         (∃ s, e.openTime = some s ∧ timeOk s = true) ∧
         (∃ s, e.closeTime = some s ∧ timeOk s = true))) ∧
    timeOk "09:00" = true ∧
    timeOk "25:00" = false ∧
    (∀ (pre : String) (day : Rat) (ot ct : String),
      0 ≤ day → day ≤ 6 → timeOk ot = true → timeOk ct = true →
      ohErrs pre { dayOfWeek := some day, openTime := some ot, closeTime := some ct } = []) ∧
    (∀ (db : DB) (p : Payload) (l : List OHP),
      p.openingHours = some l → ohListErrs 0 l ≠ [] →
      (createHandler db p).1 = Response.validationErr (errsCreate p) ∧
      ((createHandler db p).1).statusCode = 400) ∧
    (∀ (db : DB) (i : Nat) (old : Pharmacy) (p : Payload) (l : List OHP),
      db.find? i = some old → p.openingHours = some l → ohListErrs 0 l ≠ [] →
      (updateHandler db (RId.ok i) p).1 = Response.validationErr (errsUpdate p)) := by
  refine ⟨ohErrs_eq_nil_iff, by decide, by decide, ?_, ?_, ?_⟩
  · intro pre day ot ct h0 h6 hot hct
    exact (ohErrs_eq_nil_iff pre _).mpr ⟨⟨day, rfl, h0, h6⟩, ⟨ot, rfl, hot⟩, ⟨ct, rfl, hct⟩⟩
  · intro db p l hpo hne
    have he : errsCreate p ≠ [] := by
      intro hc
      simp only [errsCreate, hpo, Option.getD_some, List.append_eq_nil] at hc
      exact hne hc.2
    rw [createHandler_of_errs db p he]
    exact ⟨rfl, rfl⟩
  · intro db i old p l hf hpo hne
    have he : errsUpdate p ≠ [] := by
      intro hc
      simp only [errsUpdate, hpo, List.append_eq_nil] at hc
      exact hne hc.2
    rw [updateHandler_of_errs db i p old hf he]

/-- Claim C7, witness. -/
theorem opening_hours_validation_w :
    ohErrs "openingHours.0"
      { dayOfWeek := some 2, openTime := some "18:00", closeTime := some "09:00" } = [] :=
  opening_hours_validation.2.2.2.1 "openingHours.0" 2 "18:00" "09:00"
    (by decide) (by decide) (by decide) (by decide)

/-! ## Claim C8 -/

/-- Claim C8, counterexample: the `match` validator of mongoose skips
empty strings, so a present email that is empty (hence does not match the
`text@text.text` pattern) is accepted: the create succeeds with 201 and
stores `email = ""`, refuting "accepted exactly when it matches". -/
theorem email_validation_cex :
    (createHandler emptyDB pEmptyEmail).1 = Response.created (buildCreate pEmptyEmail) ∧
    ((createHandler emptyDB pEmptyEmail).1).statusCode = 201 ∧
    (buildCreate pEmptyEmail).email = some "" ∧
    emailOk "" = false := by
  exact ⟨by decide, by decide, by decide, by decide⟩

/-- Claim C8 (amended): a present email value is trimmed and lowercased;
it is accepted exactly when the result is empty or matches the unanchored
`text@text.text` pattern (`"a@b.co"` accepted, `"not-an-email"` rejected
with the validation 400, carrying the `email` field in the error detail);
a successful create or update stores the trimmed lowercased value; an
omitted email is accepted. -/
theorem email_validation :
    (∀ s, emailErrs (some s) = [] ↔
      (emailNorm s = "" ∨ emailOk (emailNorm s) = true)) ∧
    emailOk "a@b.co" = true ∧
    emailOk "not-an-email" = false ∧
    (∀ (db : DB) (p : Payload) (s : String), p.email = some s →
      emailNorm s ≠ "" → emailOk (emailNorm s) = false →
      (createHandler db p).1 = Response.validationErr (errsCreate p) ∧
      "email" ∈ errsCreate p ∧
      ((createHandler db p).1).statusCode = 400) ∧
    (∀ (db db2 : DB) (p : Payload) (s : String) (rec : Pharmacy), p.email = some s →
      createHandler db p = (Response.created rec, db2) →
      rec.email = some (emailNorm s)) ∧
    (∀ (db : DB) (i : Nat) (old : Pharmacy) (p : Payload) (s : String),
      db.find? i = some old → p.email = some s →
      emailNorm s ≠ "" → emailOk (emailNorm s) = false →
      (updateHandler db (RId.ok i) p).1 = Response.validationErr (errsUpdate p) ∧
      "email" ∈ errsUpdate p) ∧
    (∀ (db db2 : DB) (i : Nat) (old : Pharmacy) (p : Payload) (s : String)
      (rec : Pharmacy),
      db.find? i = some old → p.email = some s →
      updateHandler db (RId.ok i) p = (Response.okRecord rec, db2) →
      rec.email = some (emailNorm s)) ∧
    okPayload.email = none ∧
    ((createHandler emptyDB okPayload).1).statusCode = 201 := by
  refine ⟨?_, by decide, by decide, ?_, ?_, ?_, ?_, rfl, by decide⟩
  · intro s
    constructor
    · exact emailErrs_some_nil s
    · rintro (h | h) <;> simp [emailErrs, h]
  · intro db p s hpe hne hok
    have hm : "email" ∈ errsCreate p := by
      simp [errsCreate, emailErrs, hpe, hne, hok]
    have he : errsCreate p ≠ [] := List.ne_nil_of_mem hm
    rw [createHandler_of_errs db p he]
    exact ⟨rfl, hm, rfl⟩
  · intro db db2 p s rec hpe h
    obtain ⟨hrec, -, -⟩ := createHandler_created_inv db db2 p rec h
    simp [hrec, buildCreate, hpe]
  · intro db i old p s hf hpe hne hok
    have hm : "email" ∈ errsUpdate p := by
      simp [errsUpdate, emailErrs, hpe, hne, hok]
    have he : errsUpdate p ≠ [] := List.ne_nil_of_mem hm
    rw [updateHandler_of_errs db i p old hf he]
    exact ⟨rfl, hm⟩
  · intro db db2 i old p s rec hf hpe h
    obtain ⟨hrec, -⟩ := updateHandler_ok_inv db db2 i old p rec hf h
    simp [hrec, buildUpdate, hpe]

/-- Claim C8, witness. -/
theorem email_validation_w :
    (createHandler emptyDB { okPayload with email := some "bad" }).1 =
      Response.validationErr (errsCreate { okPayload with email := some "bad" }) ∧
    "email" ∈ errsCreate { okPayload with email := some "bad" } := by
  have h := email_validation.2.2.2.1 emptyDB { okPayload with email := some "bad" }
    "bad" rfl (by decide) (by decide)
  exact ⟨h.1, h.2.1⟩


end Prescripto
